import Mathlib

/-!
Shallow embedding of the trade normalization, snapshot diff, lifecycle
replay and daily P and L engine of the sensibull repository
(src/sensibull/app.py, src/sensibull/scraper.py).

Modelling conventions:
  * Python floats become rationals; Python ints become Int.
  * Python truthiness on numbers (x or y) becomes: if x = 0 then y else x.
  * Python dict.get with a missing key becomes Option.
  * Python dicts keyed by strings become association lists whose lookup
    takes the first matching entry; insertion order is preserved, as in
    Python dicts.
  * The functions under test never raise on the modelled inputs; the try
    and except blocks in the source guard divisions that the explicit
    zero checks already make total, so the except arms are unreachable
    and are not modelled.
-/

/-- Python `a or b` on numbers: b when a is zero (falsy), else a. -/
def orQ (a b : ℚ) : ℚ := if a = 0 then b else a

/-- Python `a or b` on integers. -/
def orI (a b : ℤ) : ℤ := if a = 0 then b else a

/-- Python `t.get(k) or rest` for an optional numeric field: a present,
non-zero value wins, otherwise evaluation falls through to the rest. -/
def pyOrQ (a : Option ℚ) (rest : ℚ) : ℚ :=
  match a with
  | some v => if v = 0 then rest else v
  | none => rest

/-- Python `t.get(k) or rest` for an optional integer field. -/
def pyOrI (a : Option ℤ) (rest : ℤ) : ℤ :=
  match a with
  | some v => if v = 0 then rest else v
  | none => rest

/-- Python f-string interpolation of a possibly missing string: None prints
as the four letter word None. -/
def fmtOpt (s : Option String) : String := s.getD "None"

/-- Canonical trade record as built by normalize_trades_for_diff: the
symbol and product are stored as read (possibly absent), numeric fields
are resolved to numbers. -/
structure Trade where
  trading_symbol : Option String
  product : Option String
  quantity : ℤ
  average_price : ℚ
  last_price : ℚ
  unbooked_pnl : ℚ
  booked_profit_loss : ℚ
deriving Repr, DecidableEq

/-- A normalized snapshot: instrument key to trade, in insertion order. -/
abbrev TradeMap := List (String × Trade)

/-- Dict lookup: first entry with the given key. -/
def lookupTM : TradeMap → String → Option Trade
  | [], _ => none
  | (k, t) :: rest, key => if k = key then some t else lookupTM rest key

/-- One raw trade object of the upstream feed: every alias field may be
present or absent, as in the raw JSON. -/
structure RawTrade where
  trading_symbol : Option String := none
  product : Option String := none
  quantity : Option ℤ := none
  qty : Option ℤ := none
  net_qty : Option ℤ := none
  net_quantity : Option ℤ := none
  average_price : Option ℚ := none
  avg_price : Option ℚ := none
  averageprice : Option ℚ := none
  avg : Option ℚ := none
  last_price : Option ℚ := none
  lastprice : Option ℚ := none
  ltp : Option ℚ := none
  last : Option ℚ := none
  unbooked_pnl : Option ℚ := none
  unbookedpnl : Option ℚ := none
  unbooked : Option ℚ := none
  booked_profit_loss : Option ℚ := none
  bookedprofitloss : Option ℚ := none
  booked_pnl : Option ℚ := none
  bookedpnl : Option ℚ := none
deriving Repr, DecidableEq

/-- Instrument key of a raw trade, app.py line 1384. -/
def tradeKey (t : RawTrade) : String :=
  fmtOpt t.trading_symbol ++ "|" ++ fmtOpt t.product

/-- Alias resolution for quantity, app.py line 1387. -/
def rawQuantity (t : RawTrade) : ℤ :=
  pyOrI t.quantity (pyOrI t.qty (pyOrI t.net_qty (pyOrI t.net_quantity 0)))

/-- Alias resolution for average price, app.py line 1389. -/
def rawAvgPrice (t : RawTrade) : ℚ :=
  pyOrQ t.average_price (pyOrQ t.avg_price (pyOrQ t.averageprice (pyOrQ t.avg 0)))

/-- Alias resolution for last price, app.py line 1391. -/
def rawLastPrice (t : RawTrade) : ℚ :=
  pyOrQ t.last_price (pyOrQ t.lastprice (pyOrQ t.ltp (pyOrQ t.last 0)))

/-- Alias resolution for unbooked P and L, app.py line 1393. -/
def rawUnbooked (t : RawTrade) : ℚ :=
  pyOrQ t.unbooked_pnl (pyOrQ t.unbookedpnl (pyOrQ t.unbooked 0))

/-- Alias resolution for booked P and L, app.py line 1394. -/
def rawBooked (t : RawTrade) : ℚ :=
  pyOrQ t.booked_profit_loss (pyOrQ t.bookedprofitloss (pyOrQ t.booked_pnl (pyOrQ t.bookedpnl 0)))

/-- Insertion of one raw trade into the map under construction,
app.py lines 1383 to 1412: a fresh key appends a full record, a repeated
key overwrites scalar fields only with non-zero values but always
overwrites the two P and L fields. -/
def insertTrade (m : TradeMap) (t : RawTrade) : TradeMap :=
  let key := tradeKey t
  match lookupTM m key with
  | none =>
    m ++ [(key,
      { trading_symbol := t.trading_symbol
        product := t.product
        quantity := rawQuantity t
        average_price := rawAvgPrice t
        last_price := rawLastPrice t
        unbooked_pnl := rawUnbooked t
        booked_profit_loss := rawBooked t })]
  | some old =>
    let merged : Trade :=
      { old with
        quantity := if rawQuantity t ≠ 0 then rawQuantity t else old.quantity
        average_price := if rawAvgPrice t ≠ 0 then rawAvgPrice t else old.average_price
        last_price := if rawLastPrice t ≠ 0 then rawLastPrice t else old.last_price
        unbooked_pnl := rawUnbooked t
        booked_profit_loss := rawBooked t }
    m.map (fun p => if p.1 = key then (key, merged) else p)

/-- normalize_trades_for_diff, app.py lines 1370 to 1414: fold every trade
of every position group into the keyed map. Never fails. -/
def normalize_trades_for_diff (positions_data : List (List RawTrade)) : TradeMap :=
  positions_data.foldl (fun m p => p.foldl insertTrade m) []

/-! ## Pairwise snapshot differ, app.py calculate_diff (lines 1416 to 1666) -/

/-- Historical backfill shared by the removed and modified branches,
app.py lines 1450 to 1462 and 1515 to 1528: when the previous snapshot
reports zero quantity or zero average price, the zero fields (and a zero
last price) are substituted from the historical lookup. Returns
(original_quantity, original_average_price, original_last_price). -/
def backfillOriginal (p : Trade) (hist : Option Trade) : ℤ × ℚ × ℚ :=
  let oq := p.quantity
  let oa := p.average_price
  let ol := p.last_price
  if oq = 0 ∨ oa = 0 then
    match hist with
    | some h =>
      (if oq = 0 then h.quantity else oq,
       if oa = 0 then h.average_price else oa,
       if ol = 0 then h.last_price else ol)
    | none => (oq, oa, ol)
  else (oq, oa, ol)

/-- The value delta implied fill price, app.py lines 1560 to 1566 and the
core of compute_implied_fill (lines 913 to 919): the absolute incremental
notional value per unit of quantity change, zero when the delta or either
average price is zero. -/
def impliedFillPrice0 (q0 q1 : ℤ) (a0 a1 : ℚ) : ℚ :=
  if q1 - q0 ≠ 0 ∧ a0 ≠ 0 ∧ a1 ≠ 0 then
    |(a1 * q1 - a0 * q0) / (q1 - q0)|
  else 0

/-- Implied fill side from the sign of the quantity delta. -/
def impliedFillSide (dq : ℤ) : String :=
  if dq > 0 then "BUY" else if dq < 0 then "SELL" else ""

/-- Reduction detection, app.py line 1585: the magnitude of the leg is
shrinking toward flat. -/
def isReducing (q0 q1 : ℤ) : Prop := (q0 > 0 ∧ q1 < q0) ∨ (q0 < 0 ∧ q1 > q0)

instance (q0 q1 : ℤ) : Decidable (isReducing q0 q1) := by
  unfold isReducing; infer_instance

/-- An added diff entry, app.py lines 1434 to 1441. -/
structure AddedEntry where
  trade : Trade
  original_quantity : ℤ
  exit_pnl : ℚ
  exit_price : ℚ
deriving Repr, DecidableEq

/-- A removed diff entry, app.py lines 1442 to 1508. The trade field is the
previous trade, with its average price patched for display when history
supplied it (line 1505). -/
structure RemovedEntry where
  trade : Trade
  original_quantity : ℤ
  original_average_price : ℚ
  exit_price : ℚ
  exit_pnl : ℚ
  booked_pnl : ℚ
deriving Repr, DecidableEq

/-- A modified diff entry, app.py lines 1509 to 1660. The trade field is the
current trade, average price patched for display when history supplied it. -/
structure ModifiedEntry where
  trade : Trade
  old_quantity : ℤ
  quantity_diff : ℤ
  original_quantity : ℤ
  original_average_price : ℚ
  implied_fill_side : String
  implied_fill_qty : ℤ
  implied_fill_price : ℚ
  booked_pnl : ℚ
  exit_pnl : ℚ
  exit_price : ℚ
deriving Repr, DecidableEq

/-- The diff result: three lists, app.py lines 1662 to 1666. -/
structure DiffResult where
  added : List (String × AddedEntry)
  removed : List (String × RemovedEntry)
  modified : List (String × ModifiedEntry)
deriving Repr, DecidableEq

/-- Added branch, app.py lines 1434 to 1441. -/
def addedEntry (c : Trade) : AddedEntry :=
  { trade := c, original_quantity := 0, exit_pnl := 0, exit_price := 0 }

/-- Removed branch, app.py lines 1442 to 1508. The curr map is consulted
for a booked P and L fallback (lines 1486 to 1488), guarded by membership
of the key in the current map. -/
def removedEntry (key : String) (p : Trade) (curr : TradeMap) (hist : TradeMap) :
    RemovedEntry :=
  let bf := backfillOriginal p (lookupTM hist key)
  let oq := bf.1
  let oa := bf.2.1
  let ol := bf.2.2
  let exit_price := orQ ol (orQ p.last_price 0)
  let booked0 := orQ p.booked_profit_loss 0
  let booked :=
    if booked0 = 0 ∧ (lookupTM curr key).isSome then
      match lookupTM curr key with
      | some ct => orQ ct.booked_profit_loss 0
      | none => booked0
    else booked0
  let avg_price := orQ oa (orQ p.average_price 0)
  let exit_pnl :=
    if booked ≠ 0 then booked
    else if oq ≠ 0 ∧ avg_price ≠ 0 ∧ exit_price ≠ 0 then (exit_price - avg_price) * oq
    else 0
  let trade1 := if oa ≠ 0 ∧ p.average_price = 0 then { p with average_price := oa } else p
  { trade := trade1
    original_quantity := oq
    original_average_price := oa
    exit_price := exit_price
    exit_pnl := exit_pnl
    booked_pnl := exit_pnl }

/-- Entry price used by the reducing branch, app.py lines 1598 and 1616:
the history backed original average price, or the raw previous average. -/
def modEntryPrice (oa : ℚ) (p : Trade) : ℚ :=
  if oa ≠ 0 then oa else orQ p.average_price 0

/-- Modified branch, app.py lines 1509 to 1660. -/
def modifiedEntry (key : String) (p c : Trade) (hist : TradeMap) : ModifiedEntry :=
  let bf := backfillOriginal p (lookupTM hist key)
  let oq := bf.1
  let oa := bf.2.1
  let q0 := orI p.quantity 0
  let q1 := orI c.quantity 0
  let dq := q1 - q0
  let a0 := modEntryPrice oa p
  let a1 := orQ c.average_price 0
  let side := impliedFillSide dq
  let fillQty := |dq|
  let ifp0 := impliedFillPrice0 q0 q1 a0 a1
  let res :=
    if isReducing q0 q1 then
      let brokerBooked := orQ c.booked_profit_loss 0
      if brokerBooked ≠ 0 then
        let closedQty := |q0 - q1|
        let entryPrice := modEntryPrice oa p
        if closedQty ≠ 0 ∧ entryPrice ≠ 0 then
          let exitP :=
            if q0 > 0 then brokerBooked / closedQty + entryPrice
            else entryPrice - brokerBooked / closedQty
          (brokerBooked, brokerBooked, exitP, exitP)
        else (brokerBooked, brokerBooked, orQ ifp0 0, ifp0)
      else
        let closedQty := |q0 - q1|
        let entryPrice := modEntryPrice oa p
        let exitP0 := orQ ifp0 0
        let subst :=
          if q1 = 0 ∧ exitP0 ≠ 0 ∧ |exitP0 - entryPrice| < 1/100 then
            let ltp := orQ c.last_price (orQ p.last_price 0)
            if ltp > 0 then (ltp, ltp) else (exitP0, ifp0)
          else (exitP0, ifp0)
        let exitP := subst.1
        let ifp1 := subst.2
        if entryPrice ≠ 0 ∧ exitP ≠ 0 ∧ closedQty ≠ 0 then
          let bp :=
            if q0 > 0 then (exitP - entryPrice) * closedQty
            else (entryPrice - exitP) * closedQty
          (bp, bp, exitP, ifp1)
        else (0, 0, 0, ifp1)
    else (0, 0, 0, ifp0)
  let trade1 := if oa ≠ 0 ∧ c.average_price = 0 then { c with average_price := oa } else c
  { trade := trade1
    old_quantity := p.quantity
    quantity_diff := c.quantity - p.quantity
    original_quantity := oq
    original_average_price := oa
    implied_fill_side := side
    implied_fill_qty := fillQty
    implied_fill_price := res.2.2.2
    booked_pnl := res.1
    exit_pnl := res.2.1
    exit_price := res.2.2.1 }

/-- Union of the two key sets, app.py line 1428, iterated in a fixed
deterministic order (first occurrence order, duplicates removed). -/
def unionKeys (prev curr : TradeMap) : List String :=
  (prev.map Prod.fst ++ curr.map Prod.fst).dedup

/-- calculate_diff, app.py lines 1416 to 1666. The single Python loop that
appends each classified key to one of three lists is rendered as one
filterMap per list over the same key order, which produces the same three
lists. -/
def calculate_diff (prev_map curr_map : TradeMap) (historical_trades : TradeMap) :
    DiffResult :=
  let keys := unionKeys prev_map curr_map
  { added := keys.filterMap (fun k =>
      match lookupTM prev_map k, lookupTM curr_map k with
      | none, some ct => some (k, addedEntry ct)
      | _, _ => none)
    removed := keys.filterMap (fun k =>
      match lookupTM prev_map k, lookupTM curr_map k with
      | some pt, none => some (k, removedEntry k pt curr_map historical_trades)
      | _, _ => none)
    modified := keys.filterMap (fun k =>
      match lookupTM prev_map k, lookupTM curr_map k with
      | some pt, some ct =>
        if pt.quantity ≠ ct.quantity then
          some (k, modifiedEntry k pt ct historical_trades)
        else none
      | _, _ => none) }

/-! ## Lifecycle replayer, app.py api_profile_symbol_lifecycle (lines 1199 to 1367)
and its helpers best_effort_trade_before (863), compute_exit_metrics (880),
compute_implied_fill (901). The route parses each snapshot and feeds it to
normalize_trades_for_diff; the replay core below takes the normalized maps
together with their timestamps. Database only fields (snapshot_id,
change_id) and the products_seen set are not part of the replayed logic
and are omitted from the model. -/

/-- ASCII uppercase of a string, the Python str.upper of the symbols the
feed carries. -/
def upperStr (s : String) : String := ⟨s.data.map Char.toUpper⟩

/-- Python str.startswith on character lists. -/
def listIsPfx : List Char → List Char → Bool
  | [], _ => true
  | _ :: _, [] => false
  | c :: cs, d :: ds => c = d && listIsPfx cs ds

/-- The part of a key after the first vertical bar, Python
key.split with a bar and limit one, component one. -/
def afterBar (key : String) : String :=
  ⟨(key.data.dropWhile (fun c => c ≠ '|')).drop 1⟩

/-- Product component of a key, app.py line 1262: the part after the first
bar when the key has one, else the empty string. -/
def keyProd (key : String) : String :=
  if key.data.contains '|' then afterBar key else ""

/-- Per key lifecycle state, app.py lines 1271 to 1275. -/
structure LifeState where
  present : Bool
  last_trade : Option Trade
  last_good_trade : Option Trade
deriving Repr, DecidableEq

/-- The state dict of one replay call: key to state, insertion ordered. -/
abbrev StateMap := List (String × LifeState)

/-- Dict lookup in the state map. -/
def lookupLS : StateMap → String → Option LifeState
  | [], _ => none
  | (k, v) :: rest, key => if k = key then some v else lookupLS rest key

/-- Dict assignment in the state map: replace in place, or append. -/
def setLS (st : StateMap) (key : String) (v : LifeState) : StateMap :=
  if (lookupLS st key).isSome then
    st.map (fun p => if p.1 = key then (key, v) else p)
  else st ++ [(key, v)]

/-- best_effort_trade_before, app.py lines 863 to 877: patch zero quantity,
average price and last price fields from the last known good trade. -/
def best_effort_trade_before (trade good : Option Trade) : Option Trade :=
  match trade with
  | none => none
  | some t =>
    match good with
    | none => some t
    | some g =>
      some { t with
        quantity := if t.quantity = 0 ∧ g.quantity ≠ 0 then g.quantity else t.quantity
        average_price :=
          if t.average_price = 0 ∧ g.average_price ≠ 0 then g.average_price
          else t.average_price
        last_price :=
          if t.last_price = 0 ∧ g.last_price ≠ 0 then g.last_price else t.last_price }

/-- compute_exit_metrics, app.py lines 880 to 898: best effort
(exit_pnl, exit_price) from the trade before the exit. -/
def compute_exit_metrics (before : Option Trade) : ℚ × ℚ :=
  match before with
  | none => (0, 0)
  | some t =>
    let qty := orI t.quantity 0
    let avg_price := orQ t.average_price 0
    let booked_pnl := orQ t.booked_profit_loss 0
    let exit_price := orQ (orQ t.last_price 0) 0
    let exit_pnl :=
      if booked_pnl ≠ 0 then booked_pnl
      else if qty ≠ 0 ∧ avg_price ≠ 0 ∧ exit_price ≠ 0 then
        (exit_price - avg_price) * qty
      else 0
    (exit_pnl, exit_price)

/-- compute_implied_fill, app.py lines 901 to 923: implied
(side, quantity, price) for the quantity delta between two snapshots.
The original average price argument plays the role of the Python keyword
argument, with zero standing for the absent or None default. -/
def compute_implied_fill (prev curr : Option Trade) (original_avg_price : ℚ) :
    String × ℤ × ℚ :=
  let q0 := match prev with | some t => orI t.quantity 0 | none => 0
  let q1 := match curr with | some t => orI t.quantity 0 | none => 0
  let dq := q1 - q0
  let a0 :=
    if original_avg_price ≠ 0 then original_avg_price
    else match prev with | some t => orQ t.average_price 0 | none => 0
  let a1 := match curr with | some t => orQ t.average_price 0 | none => 0
  (impliedFillSide dq, |dq|, impliedFillPrice0 q0 q1 a0 a1)

/-- One emitted lifecycle event, app.py lines 1331 to 1351. -/
structure LifeEvent where
  timestamp : ℕ
  type : String
  symbol : String
  product : Option String
  before_quantity : ℤ
  after_quantity : ℤ
  quantity_diff : ℤ
  before_average_price : ℚ
  after_average_price : ℚ
  after_last_price : ℚ
  after_unbooked_pnl : ℚ
  after_booked_pnl : ℚ
  exit_pnl : ℚ
  exit_price : ℚ
  implied_fill_side : String
  implied_fill_qty : ℤ
  implied_fill_price : ℚ
deriving Repr, DecidableEq

/-- Processing of one matching key on one snapshot, app.py lines 1269 to
1356: compute the transition, emit at most one event, and persist the
updated state for the key. -/
def lifecycleProcessKey (symbolNorm : String) (ts : ℕ) (key : String)
    (tm : TradeMap) (st0 : LifeState) : Option LifeEvent × LifeState :=
  let currTrade := lookupTM tm key
  let prevPresent := st0.present
  let prevTrade := best_effort_trade_before st0.last_trade st0.last_good_trade
  let currPresent : Bool :=
    match currTrade with
    | some t => decide (orI t.quantity 0 ≠ 0)
    | none => false
  let st1 :=
    match currTrade with
    | some t =>
      if t.quantity ≠ 0 ∧ t.average_price ≠ 0 then
        { st0 with last_good_trade := some t }
      else st0
    | none => st0
  let prevQty := match prevTrade with | some t => orI t.quantity 0 | none => 0
  let currQty := match currTrade with | some t => orI t.quantity 0 | none => 0
  let eventType : Option String :=
    if !prevPresent && currPresent then some "ENTERED"
    else if prevPresent && !currPresent then some "EXITED"
    else if prevPresent && currPresent && decide (prevQty ≠ currQty) then
      some "MODIFIED"
    else none
  let ev := eventType.map (fun ty =>
    let beforeQty := match prevTrade with | some t => orI t.quantity 0 | none => 0
    let afterQty := match currTrade with | some t => orI t.quantity 0 | none => 0
    let beforeAvg := match prevTrade with | some t => orQ t.average_price 0 | none => 0
    let afterAvg := match currTrade with | some t => orQ t.average_price 0 | none => 0
    let afterLtp := match currTrade with | some t => orQ t.last_price 0 | none => 0
    let afterUnbooked := match currTrade with | some t => orQ t.unbooked_pnl 0 | none => 0
    let afterBooked := match currTrade with | some t => orQ t.booked_profit_loss 0 | none => 0
    let exits := if ty = "EXITED" then compute_exit_metrics prevTrade else (0, 0)
    let fills :=
      if ty = "MODIFIED" then compute_implied_fill prevTrade currTrade beforeAvg
      else ("", 0, 0)
    let productVal : Option String :=
      if key.data.contains '|' then some (afterBar key)
      else match currTrade with | some t => t.product | none => some ""
    { timestamp := ts
      type := ty
      symbol := symbolNorm
      product := productVal
      before_quantity := beforeQty
      after_quantity := afterQty
      quantity_diff := afterQty - beforeQty
      before_average_price := beforeAvg
      after_average_price := afterAvg
      after_last_price := afterLtp
      after_unbooked_pnl := afterUnbooked
      after_booked_pnl := afterBooked
      exit_pnl := exits.1
      exit_price := exits.2
      implied_fill_side := fills.1
      implied_fill_qty := fills.2.1
      implied_fill_price := fills.2.2 })
  (ev, { st1 with present := currPresent, last_trade := currTrade })

/-- Matching keys of one snapshot, app.py lines 1248 to 1267: keys of the
current map whose symbol matches (and product passes a non empty filter),
then previously tracked keys with the symbol as key part that vanished
from the current map. -/
def lifecycleMatchingKeys (symbolNorm productFilter : String)
    (tm : TradeMap) (st : StateMap) : List String :=
  let m1 := (tm.filter (fun kt =>
    upperStr (kt.2.trading_symbol.getD "") = symbolNorm ∧
    (productFilter = "" ∨ kt.2.product.getD "" = productFilter))).map Prod.fst
  let m2 := (st.map Prod.fst).filter (fun k =>
    listIsPfx (symbolNorm ++ "|").data k.data ∧
    (productFilter = "" ∨ keyProd k = productFilter) ∧
    (lookupTM tm k).isNone ∧ ¬ k ∈ m1)
  m1 ++ m2

/-- Replay of one snapshot, app.py lines 1236 to 1356: process each
matching key in order, threading the state dict. -/
def lifecycleSnapshot (symbolNorm productFilter : String) (ts : ℕ)
    (tm : TradeMap) (st : StateMap) : List LifeEvent × StateMap :=
  (lifecycleMatchingKeys symbolNorm productFilter tm st).foldl
    (fun acc k =>
      let st0 := (lookupLS acc.2 k).getD
        { present := false, last_trade := none, last_good_trade := none }
      let r := lifecycleProcessKey symbolNorm ts k tm st0
      (acc.1 ++ r.1.toList, setLS acc.2 k r.2))
    ([], st)

/-- Replay core of api_profile_symbol_lifecycle: walk the ordered
snapshots, producing the chronological event list and the final state
dict. The route then sorts a copy of the events newest first for
display. -/
def symbol_lifecycle_replay (symbol productFilter : String)
    (snaps : List (ℕ × TradeMap)) : List LifeEvent × StateMap :=
  let symbolNorm := upperStr symbol
  snaps.foldl
    (fun acc s =>
      let r := lifecycleSnapshot symbolNorm productFilter s.1 s.2 acc.2
      (acc.1 ++ r.1, r.2))
    ([], [])

/-! ## Daily P and L metrics, app.py calculate_snapshot_pnl (lines 484 to
502) and get_daily_pnl_metrics (lines 504 to 585). The SQL rows are
modelled as per profile lists: position change rows (each carrying its
referenced snapshot raw data, or none when the snapshot row is missing),
historical snapshot rows, and the optional realtime latest snapshot.
Calendar dates become natural day numbers, timestamps natural numbers
monotone with the stored timestamp strings. -/

/-- Raw snapshot content for P and L purposes: position groups, each a
list of raw trades. -/
abbrev RawSnap := List (List RawTrade)

/-- calculate_snapshot_pnl, app.py lines 484 to 502: raw sums of
unbooked plus booked, and of booked, over every trade of every group; a
missing snapshot row yields (0, 0). The P and L fields are read with a
plain default of zero (no alias chain and no truthiness fallthrough). -/
def calculate_snapshot_pnl (snap : Option RawSnap) : ℚ × ℚ :=
  match snap with
  | none => (0, 0)
  | some data =>
    data.foldl
      (fun acc grp => grp.foldl
        (fun a t =>
          (a.1 + (t.unbooked_pnl.getD 0 + t.booked_profit_loss.getD 0),
           a.2 + t.booked_profit_loss.getD 0))
        acc)
      (0, 0)

/-- One position_changes row joined with its snapshot: calendar day,
timestamp, and the snapshot raw data (none when the snapshot row is
gone). -/
structure ChangeRow where
  day : ℕ
  ts : ℕ
  snap : Option RawSnap
deriving Repr, DecidableEq

/-- One snapshots row. -/
structure SnapRow where
  day : ℕ
  ts : ℕ
  data : RawSnap
deriving Repr, DecidableEq

/-- The latest_snapshots row for the profile. -/
structure RealtimeRow where
  ts : ℕ
  data : RawSnap
deriving Repr, DecidableEq

/-- ORDER BY timestamp DESC LIMIT 1: the row with the greatest timestamp
(first such row on ties, a deterministic rendering of the unspecified
SQL tie order). -/
def pickLatestChange (l : List ChangeRow) : Option ChangeRow :=
  l.foldl
    (fun acc r => match acc with
      | none => some r
      | some b => if r.ts > b.ts then some r else some b)
    none

/-- ORDER BY timestamp ASC LIMIT 1: the row with the least timestamp. -/
def pickEarliestChange (l : List ChangeRow) : Option ChangeRow :=
  l.foldl
    (fun acc r => match acc with
      | none => some r
      | some b => if r.ts < b.ts then some r else some b)
    none

/-- ORDER BY timestamp DESC LIMIT 1 over snapshot rows. -/
def pickLatestSnap (l : List SnapRow) : Option SnapRow :=
  l.foldl
    (fun acc r => match acc with
      | none => some r
      | some b => if r.ts > b.ts then some r else some b)
    none

/-- The latest position change strictly before the date, app.py lines
509 to 513. -/
def prevChange (changes : List ChangeRow) (date : ℕ) : Option ChangeRow :=
  pickLatestChange (changes.filter (fun r => r.day < date))

/-- The first position change of the date itself, app.py lines 520 to 524. -/
def firstChangeOfDay (changes : List ChangeRow) (date : ℕ) : Option ChangeRow :=
  pickEarliestChange (changes.filter (fun r => r.day = date))

/-- The latest snapshot recorded on the date, app.py lines 567 to 571. -/
def latestSnapOfDay (snaps : List SnapRow) (date : ℕ) : Option SnapRow :=
  pickLatestSnap (snaps.filter (fun r => r.day = date))

/-- The metrics record returned by get_daily_pnl_metrics. -/
structure PnlMetrics where
  start_pnl : ℚ
  current_pnl : ℚ
  todays_pnl : ℚ
  booked_pnl : ℚ
  last_updated : Option ℕ
deriving Repr, DecidableEq

/-- get_daily_pnl_metrics, app.py lines 504 to 585. -/
def get_daily_pnl_metrics (changes : List ChangeRow) (snaps : List SnapRow)
    (realtime : Option RealtimeRow) (today date : ℕ) : PnlMetrics :=
  let start_day_pnl :=
    match prevChange changes date with
    | some ch =>
      let r := calculate_snapshot_pnl ch.snap
      r.1 - r.2
    | none =>
      match firstChangeOfDay changes date with
      | some ch => (calculate_snapshot_pnl ch.snap).1
      | none => 0
  let useRealtime := decide (date = today) && realtime.isSome
  let cur :=
    if useRealtime then
      match realtime with
      | some rt =>
        let r := calculate_snapshot_pnl (some rt.data)
        (r.1, r.2, some rt.ts)
      | none => ((0 : ℚ), (0 : ℚ), (none : Option ℕ))
    else
      match latestSnapOfDay snaps date with
      | some s =>
        let r := calculate_snapshot_pnl (some s.data)
        (r.1, r.2, some s.ts)
      | none => ((0 : ℚ), (0 : ℚ), (none : Option ℕ))
  { start_pnl := start_day_pnl
    current_pnl := cur.1
    todays_pnl := cur.1 - start_day_pnl
    booked_pnl := cur.2.1
    last_updated := cur.2.2 }

/-! ## Underlying extraction: scraper.py extract_underlying_from_symbol
(lines 146 to 161) and the local get_underlying helper of
api_profile_all_underlyings (app.py lines 1024 to 1032). -/

/-- ASCII decimal digit test, the per character isdigit of the source
symbols (market symbols are ASCII). -/
def isDigitChar (c : Char) : Bool := decide (48 ≤ c.toNat ∧ c.toNat ≤ 57)

/-- Characters of a symbol before the first decimal digit. -/
def takeUntilDigit : List Char → List Char
  | [] => []
  | c :: rest => if isDigitChar c then [] else c :: takeUntilDigit rest

/-- extract_underlying_from_symbol, scraper.py lines 146 to 161: none for
an empty symbol, else the slice of the symbol before its first digit
(the whole symbol when it has no digit), case preserved. -/
def extract_underlying_from_symbol (trading_symbol : String) : Option String :=
  if trading_symbol = "" then none
  else some ⟨takeUntilDigit trading_symbol.data⟩

/-- Character class of the regular expression used by get_underlying:
ASCII letters (upper 65 to 90, lower 97 to 122), ampersand and hyphen. -/
def isUnderlyingChar (c : Char) : Bool :=
  decide ((65 ≤ c.toNat ∧ c.toNat ≤ 90) ∨ (97 ≤ c.toNat ∧ c.toNat ≤ 122)) ||
    c = '&' || c = '-'

/-- get_underlying, app.py lines 1024 to 1032: none for an empty symbol,
else the maximal leading run of letters, ampersands and hyphens,
uppercased; none when that run is empty. -/
def get_underlying (trading_symbol : String) : Option String :=
  if trading_symbol = "" then none
  else
    let m := trading_symbol.data.takeWhile isUnderlyingChar
    if m = [] then none else some (upperStr ⟨m⟩)

/-! ## Helper lemmas -/

theorem orQ_zero (a : ℚ) : orQ a 0 = a := by
  unfold orQ; split <;> simp_all

theorem orI_zero (a : ℤ) : orI a 0 = a := by
  unfold orI; split <;> simp_all

theorem lookupTM_isSome_of_mem {m : TradeMap} {k : String}
    (h : k ∈ m.map Prod.fst) : ∃ t, lookupTM m k = some t := by
  induction m with
  | nil => simp at h
  | cons hd tl ih =>
    by_cases hk : hd.1 = k
    · exact ⟨hd.2, by simp [lookupTM, hk]⟩
    · have : k ∈ tl.map Prod.fst := by
        rcases List.mem_map.mp h with ⟨p, hp, he⟩
        rcases List.mem_cons.mp hp with h1 | h1
        · exact absurd (h1 ▸ he) hk
        · exact List.mem_map.mpr ⟨p, h1, he⟩
      rcases ih this with ⟨t, ht⟩
      exact ⟨t, by simp [lookupTM, hk, ht]⟩

theorem mem_keys_of_lookupTM {m : TradeMap} {k : String} {t : Trade}
    (h : lookupTM m k = some t) : k ∈ m.map Prod.fst := by
  induction m with
  | nil => simp [lookupTM] at h
  | cons hd tl ih =>
    by_cases hk : hd.1 = k
    · simp [hk]
    · simp [lookupTM, hk] at h
      simp [ih h]

/-! ## Claim theorems -/

/-- Alias resolution from a priority list: first present non-zero value,
zero when every alias is absent or zero (the Python or chain). -/
def resolveQ : List (Option ℚ) → ℚ
  | [] => 0
  | x :: rest =>
    match x with
    | some v => if v = 0 then resolveQ rest else v
    | none => resolveQ rest

/-- Alias resolution from a priority list of integers. -/
def resolveZ : List (Option ℤ) → ℤ
  | [] => 0
  | x :: rest =>
    match x with
    | some v => if v = 0 then resolveZ rest else v
    | none => resolveZ rest

/-- A raw trade carrying only net_qty equal to five. -/
def rawNetQty5 : RawTrade := { net_qty := some 5 }

/-- C9: the normalizer resolves every logical field by trying its aliases
in the fixed priority order of the source, taking the first present
non-zero value and defaulting to zero when every alias is absent; in
particular net_qty equal to five with no quantity field yields quantity
five. The function is total, so it never raises. -/
theorem C9_alias_priority :
    (∀ t : RawTrade,
      normalize_trades_for_diff [[t]] =
        [(tradeKey t,
          { trading_symbol := t.trading_symbol
            product := t.product
            quantity := resolveZ [t.quantity, t.qty, t.net_qty, t.net_quantity]
            average_price := resolveQ [t.average_price, t.avg_price, t.averageprice, t.avg]
            last_price := resolveQ [t.last_price, t.lastprice, t.ltp, t.last]
            unbooked_pnl := resolveQ [t.unbooked_pnl, t.unbookedpnl, t.unbooked]
            booked_profit_loss :=
              resolveQ [t.booked_profit_loss, t.bookedprofitloss, t.booked_pnl, t.bookedpnl] })]) ∧
    (normalize_trades_for_diff [[rawNetQty5]]).map (fun kt => kt.2.quantity) = [5] := by
  constructor
  · intro t
    rfl
  · decide

theorem takeUntilDigit_eq_takeWhile (l : List Char) :
    takeUntilDigit l = l.takeWhile (fun c => !isDigitChar c) := by
  induction l with
  | nil => rfl
  | cons c cs ih =>
    by_cases h : isDigitChar c <;> simp [takeUntilDigit, List.takeWhile, h, ih]

theorem digit_not_underlyingChar {c : Char} (h : isDigitChar c = true) :
    isUnderlyingChar c = false := by
  simp only [isDigitChar, decide_eq_true_eq] at h
  simp only [isUnderlyingChar, Bool.or_eq_false_iff, decide_eq_false_iff_not]
  refine ⟨⟨?_, ?_⟩, ?_⟩
  · omega
  · intro he
    rw [he] at h
    exact absurd h (by decide)
  · intro he
    rw [he] at h
    exact absurd h (by decide)

theorem toUpper_fix {c : Char} (h : (65 ≤ c.toNat ∧ c.toNat ≤ 90) ∨ c = '&' ∨ c = '-') :
    c.toUpper = c := by
  rcases h with h | h | h
  · unfold Char.toUpper
    have : ¬(c.toNat ≥ 97 ∧ c.toNat ≤ 122) := by omega
    simp [this]
  · rw [h]; decide
  · rw [h]; decide

theorem takeWhile_underlying_eq (l : List Char)
    (hch : ∀ c ∈ takeUntilDigit l, (65 ≤ c.toNat ∧ c.toNat ≤ 90) ∨ c = '&' ∨ c = '-') :
    l.takeWhile isUnderlyingChar = takeUntilDigit l := by
  induction l with
  | nil => rfl
  | cons c cs ih =>
    by_cases hd : isDigitChar c
    · simp [takeUntilDigit, hd, List.takeWhile, digit_not_underlyingChar hd]
    · have hc := hch c (by simp [takeUntilDigit, hd])
      have hu : isUnderlyingChar c = true := by
        rcases hc with h | h | h
        · simp [isUnderlyingChar]
          exact Or.inl (Or.inl (Or.inl h))
        · simp [isUnderlyingChar, h]
        · simp [isUnderlyingChar, h]
      have ih2 := ih (fun x hx => hch x (by simp [takeUntilDigit, hd, hx]))
      simp [takeUntilDigit, hd, List.takeWhile, hu, ih2]

theorem map_toUpper_fix (l : List Char)
    (hch : ∀ c ∈ l, (65 ≤ c.toNat ∧ c.toNat ≤ 90) ∨ c = '&' ∨ c = '-') :
    l.map Char.toUpper = l := by
  induction l with
  | nil => rfl
  | cons c cs ih =>
    simp only [List.map_cons]
    rw [toUpper_fix (hch c (by simp)), ih (fun x hx => hch x (by simp [hx]))]

/-- C10 counterexample: on a lower case symbol the two extractors differ,
the scraper one preserving case and the replayer one uppercasing. -/
theorem C10_underlying_cex :
    extract_underlying_from_symbol "nifty24FEB" ≠ get_underlying "nifty24FEB" ∧
    extract_underlying_from_symbol "nifty24FEB" = some "nifty" ∧
    get_underlying "nifty24FEB" = some "NIFTY" := by
  refine ⟨?_, by decide, by decide⟩
  decide

/-- C10 amended: when every character of the symbol before its first digit
is an upper case ASCII letter, an ampersand or a hyphen, and that slice is
non empty, both extractors return exactly that slice. -/
theorem C10_underlying_agree (s : String)
    (hne : takeUntilDigit s.data ≠ [])
    (hch : ∀ c ∈ takeUntilDigit s.data, (65 ≤ c.toNat ∧ c.toNat ≤ 90) ∨ c = '&' ∨ c = '-') :
    extract_underlying_from_symbol s = some ⟨takeUntilDigit s.data⟩ ∧
    get_underlying s = some ⟨takeUntilDigit s.data⟩ := by
  have hs : s ≠ "" := by
    intro h
    rw [h] at hne
    exact hne rfl
  constructor
  · simp [extract_underlying_from_symbol, hs]
  · unfold get_underlying
    rw [if_neg hs]
    simp only [takeWhile_underlying_eq s.data hch]
    rw [if_neg hne]
    simp only [upperStr]
    congr 1
    exact congrArg String.mk (map_toUpper_fix _ hch)

theorem C10_underlying_agree_witness :
    extract_underlying_from_symbol "NIFTY24FEB" = get_underlying "NIFTY24FEB" := by
  have h := C10_underlying_agree "NIFTY24FEB" (by decide) (by decide)
  rw [h.1, h.2]

theorem mem_added_lookup {prev curr hist : TradeMap} {e : String × AddedEntry}
    (he : e ∈ (calculate_diff prev curr hist).added) :
    lookupTM prev e.1 = none ∧ lookupTM curr e.1 = some e.2.trade := by
  rcases List.mem_filterMap.mp he with ⟨k2, _, hf⟩
  rcases h1 : lookupTM prev k2 with _ | pt2 <;>
    rcases h2 : lookupTM curr k2 with _ | ct2 <;>
    simp only [h1, h2, Option.some.injEq, reduceCtorEq] at hf
  obtain rfl := hf.symm
  exact ⟨h1, by simp [h2, addedEntry]⟩

theorem mem_removed_lookup {prev curr hist : TradeMap} {e : String × RemovedEntry}
    (he : e ∈ (calculate_diff prev curr hist).removed) :
    ∃ pt, lookupTM prev e.1 = some pt ∧ lookupTM curr e.1 = none ∧
      e.2 = removedEntry e.1 pt curr hist := by
  rcases List.mem_filterMap.mp he with ⟨k2, _, hf⟩
  rcases h1 : lookupTM prev k2 with _ | pt2 <;>
    rcases h2 : lookupTM curr k2 with _ | ct2 <;>
    simp only [h1, h2, Option.some.injEq, reduceCtorEq] at hf
  obtain rfl := hf.symm
  exact ⟨pt2, h1, h2, rfl⟩

theorem mem_modified_lookup {prev curr hist : TradeMap} {e : String × ModifiedEntry}
    (he : e ∈ (calculate_diff prev curr hist).modified) :
    ∃ pt ct, lookupTM prev e.1 = some pt ∧ lookupTM curr e.1 = some ct ∧
      pt.quantity ≠ ct.quantity ∧ e.2 = modifiedEntry e.1 pt ct hist := by
  rcases List.mem_filterMap.mp he with ⟨k2, _, hf⟩
  rcases h1 : lookupTM prev k2 with _ | pt2 <;>
    rcases h2 : lookupTM curr k2 with _ | ct2 <;>
    simp only [h1, h2, reduceCtorEq] at hf
  rcases hq : decide (pt2.quantity = ct2.quantity) with _ | _
  · have hq2 : pt2.quantity ≠ ct2.quantity := of_decide_eq_false hq
    rw [if_pos hq2] at hf
    obtain rfl := (Option.some.injEq _ _ ▸ hf).symm
    exact ⟨pt2, ct2, h1, h2, hq2, rfl⟩
  · have hq2 : pt2.quantity = ct2.quantity := of_decide_eq_true hq
    rw [if_neg (by simpa using hq2)] at hf
    exact absurd hf (by simp)

theorem modified_mem_of_lookup {prev curr hist : TradeMap} {k : String} {pt ct : Trade}
    (hp : lookupTM prev k = some pt) (hc : lookupTM curr k = some ct)
    (hq : pt.quantity ≠ ct.quantity) :
    (k, modifiedEntry k pt ct hist) ∈ (calculate_diff prev curr hist).modified := by
  apply List.mem_filterMap.mpr
  refine ⟨k, ?_, ?_⟩
  · exact List.mem_dedup.mpr (List.mem_append.mpr (Or.inl (mem_keys_of_lookupTM hp)))
  · simp [hp, hc, hq]

/-- C7: a key present in both maps with equal quantity is reported in none
of the three diff lists, whatever its price only fields do; and the diff
of a map against itself is empty in all three lists. -/
theorem C7_no_change_no_report :
    (∀ (prev curr hist : TradeMap) (k : String) (pt ct : Trade),
      lookupTM prev k = some pt → lookupTM curr k = some ct →
      pt.quantity = ct.quantity →
        (∀ e ∈ (calculate_diff prev curr hist).added, e.1 ≠ k) ∧
        (∀ e ∈ (calculate_diff prev curr hist).removed, e.1 ≠ k) ∧
        (∀ e ∈ (calculate_diff prev curr hist).modified, e.1 ≠ k)) ∧
    (∀ (m hist : TradeMap),
      calculate_diff m m hist = { added := [], removed := [], modified := [] }) := by
  constructor
  · intro prev curr hist k pt ct hp hc hq
    refine ⟨?_, ?_, ?_⟩
    · intro e he hek
      obtain ⟨h1, _⟩ := mem_added_lookup he
      rw [hek, hp] at h1
      exact Option.noConfusion h1
    · intro e he hek
      obtain ⟨pt2, _, h2, _⟩ := mem_removed_lookup he
      rw [hek, hc] at h2
      exact Option.noConfusion h2
    · intro e he hek
      obtain ⟨pt2, ct2, h1, h2, hne, _⟩ := mem_modified_lookup he
      rw [hek, hp] at h1
      rw [hek, hc] at h2
      cases h1
      cases h2
      exact hne hq
  · intro m hist
    have hsome : ∀ k ∈ unionKeys m m, ∃ t, lookupTM m k = some t := by
      intro k hk
      apply lookupTM_isSome_of_mem
      rcases List.mem_append.mp (List.mem_dedup.mp hk) with h | h <;> exact h
    simp only [calculate_diff, DiffResult.mk.injEq]
    refine ⟨?_, ?_, ?_⟩ <;>
      · apply List.filterMap_eq_nil_iff.mpr
        intro k hk
        rcases hsome k hk with ⟨t, ht⟩
        simp [ht]

/-- A one key map used by the C7 witness. -/
def tC7 : Trade := ⟨some "A", some "B", 7, 10, 11, 1, 2⟩

theorem C7_no_change_no_report_witness :
    calculate_diff [("A|B", tC7)] [("A|B", tC7)] [] =
      { added := [], removed := [], modified := [] } :=
  C7_no_change_no_report.2 [("A|B", tC7)] []

/-- C5: with a zero booked P and L, the exit estimate of a removed diff
key is (exit price minus backfilled average) times the backfilled signed
original quantity, zero when quantity, average or exit price is zero, the
exit price being the last observed last price; the same formula drives
compute_exit_metrics, which every EXITED lifecycle event applies to the
backfilled previous trade. -/
theorem C5_exit_estimate :
    (∀ (curr hist : TradeMap) (k : String) (p : Trade),
      lookupTM curr k = none → p.booked_profit_loss = 0 →
      (removedEntry k p curr hist).exit_price =
        orQ (backfillOriginal p (lookupTM hist k)).2.2 p.last_price ∧
      (removedEntry k p curr hist).exit_pnl =
        (if (backfillOriginal p (lookupTM hist k)).1 ≠ 0 ∧
            orQ (backfillOriginal p (lookupTM hist k)).2.1 p.average_price ≠ 0 ∧
            (removedEntry k p curr hist).exit_price ≠ 0 then
          ((removedEntry k p curr hist).exit_price -
              orQ (backfillOriginal p (lookupTM hist k)).2.1 p.average_price) *
            (backfillOriginal p (lookupTM hist k)).1
        else 0)) ∧
    (∀ t : Trade, t.booked_profit_loss = 0 →
      compute_exit_metrics (some t) =
        ((if t.quantity ≠ 0 ∧ t.average_price ≠ 0 ∧ t.last_price ≠ 0 then
            (t.last_price - t.average_price) * t.quantity
          else 0), t.last_price)) ∧
    (∀ (S : String) (ts : ℕ) (key : String) (tm : TradeMap) (st : LifeState)
        (e : LifeEvent),
      (lifecycleProcessKey S ts key tm st).1 = some e → e.type = "EXITED" →
      (e.exit_pnl, e.exit_price) =
        compute_exit_metrics (best_effort_trade_before st.last_trade st.last_good_trade)) := by
  refine ⟨?_, ?_, ?_⟩
  · intro curr hist k p hc hb
    unfold removedEntry
    simp only [hc, Option.isSome_none, Bool.false_eq_true, and_false, if_false,
      orQ_zero, hb]
    constructor
    · trivial
    · simp [orQ]
  · intro t hb
    unfold compute_exit_metrics
    simp [hb, orQ_zero, orI_zero]
  · intro S ts key tm st e hEv hEx
    unfold lifecycleProcessKey at hEv
    simp only [Option.map_eq_some'] at hEv
    rcases hEv with ⟨ty, hty, hbuild⟩
    subst hbuild
    simp only at hEx
    subst hEx
    simp

/-- A short leg with zero booked P and L used by the C5 witness. -/
def tC5p : Trade := ⟨some "K", some "M", -10, 50, 40, 0, 0⟩

theorem C5_exit_estimate_witness :
    (removedEntry "K|M" tC5p [] []).exit_pnl = 100 ∧
    (removedEntry "K|M" tC5p [] []).exit_price = 40 := by
  have h := C5_exit_estimate.1 [] [] "K|M" tC5p rfl rfl
  refine ⟨?_, ?_⟩
  · rw [h.2, h.1]
    norm_num [backfillOriginal, tC5p, orQ, lookupTM]
  · rw [h.1]
    norm_num [backfillOriginal, tC5p, orQ, lookupTM]

/-- C4 counterexample: a modified key whose previous average price is zero
but whose historical backfill supplies 100 gets an implied fill price of
120, computed from the backfilled average, where the claim (which reads
the raw previous average price and demands zero when it is zero) requires
zero. -/
def tC4p : Trade := ⟨some "K", some "M", 5, 0, 0, 0, 0⟩

/-- Current side of the C4 counterexample. -/
def tC4c : Trade := ⟨some "K", some "M", 10, 110, 0, 0, 0⟩

/-- Historical backfill of the C4 counterexample. -/
def tC4h : Trade := ⟨some "K", some "M", 5, 100, 90, 0, 0⟩

theorem C4_implied_fill_cex :
    tC4p.average_price = 0 ∧
    (calculate_diff [("K|M", tC4p)] [("K|M", tC4c)] [("K|M", tC4h)]).modified.map
      (fun x => x.2.implied_fill_price) = [120] ∧ (120 : ℚ) ≠ 0 := by
  refine ⟨by norm_num [tC4p], ?_, by norm_num⟩
  have hk : unionKeys [("K|M", tC4p)] [("K|M", tC4c)] = ["K|M"] := by decide
  simp only [calculate_diff]
  rw [hk]
  simp only [List.filterMap_cons, List.filterMap_nil, lookupTM, ite_true]
  norm_num [modifiedEntry, backfillOriginal, impliedFillPrice0, impliedFillSide,
    isReducing, modEntryPrice, orQ, orI, lookupTM, tC4p, tC4c, tC4h]

/-- C4 amended: for a modified key, as long as the change is not a
reduction, or is a reduction with zero current booked P and L that does
not take the quantity to zero, the implied fill price equals the absolute
value delta formula evaluated with the history backfilled original
average price (the raw previous average only when non zero) and the
current average price, and is zero whenever the delta or either of those
prices is zero; the computation is total and never raises. On reducing
legs outside these conditions the displayed value is overwritten by the
exit price consistent with the broker booked figure or by the last traded
price. -/
theorem C4_implied_fill (prev curr hist : TradeMap) (k : String) (pt ct : Trade)
    (hp : lookupTM prev k = some pt) (hc : lookupTM curr k = some ct)
    (hq : pt.quantity ≠ ct.quantity)
    (hover : ¬ isReducing pt.quantity ct.quantity ∨
      (ct.booked_profit_loss = 0 ∧ ct.quantity ≠ 0)) :
    (k, modifiedEntry k pt ct hist) ∈ (calculate_diff prev curr hist).modified ∧
    (modifiedEntry k pt ct hist).implied_fill_price =
      impliedFillPrice0 pt.quantity ct.quantity
        (modEntryPrice (backfillOriginal pt (lookupTM hist k)).2.1 pt)
        ct.average_price := by
  refine ⟨modified_mem_of_lookup hp hc hq, ?_⟩
  unfold modifiedEntry
  simp only [orI_zero, orQ_zero]
  rcases hover with hover | hover
  · rw [if_neg hover]
  · rw [hover.1]
    by_cases hred : isReducing pt.quantity ct.quantity
    · rw [if_pos hred]
      rw [if_neg (by simp [orQ])]
      simp only [hover.2, false_and, if_false]
      split <;> rfl
    · rw [if_neg hred]

/-- Previous side of the C4 witness, an increasing long leg. -/
def tC4wp : Trade := ⟨some "K", some "M", 5, 100, 0, 0, 0⟩

/-- Current side of the C4 witness. -/
def tC4wc : Trade := ⟨some "K", some "M", 10, 110, 0, 0, 0⟩

theorem C4_implied_fill_witness :
    (("K|M", modifiedEntry "K|M" tC4wp tC4wc []) ∈
      (calculate_diff [("K|M", tC4wp)] [("K|M", tC4wc)] []).modified) ∧
    (modifiedEntry "K|M" tC4wp tC4wc []).implied_fill_price =
      impliedFillPrice0 tC4wp.quantity tC4wc.quantity
        (modEntryPrice (backfillOriginal tC4wp (lookupTM [] "K|M")).2.1 tC4wp)
        tC4wc.average_price :=
  C4_implied_fill [("K|M", tC4wp)] [("K|M", tC4wc)] [] "K|M" tC4wp tC4wc rfl rfl
    (by decide)
    (Or.inl (by norm_num [isReducing, tC4wp, tC4wc]))

/-- C6 counterexample: a full exit with matching implied and entry price
but with both last prices zero keeps the implied value 100 as exit price
and displayed implied fill price; the last traded price (zero here) is
not substituted, against the claim that equality of implied and entry
price alone triggers the substitution. -/
def tC6p : Trade := ⟨some "K", some "M", 10, 100, 0, 0, 0⟩

/-- Current side of the C6 counterexample. -/
def tC6c : Trade := ⟨some "K", some "M", 0, 100, 0, 0, 0⟩

theorem C6_full_exit_ltp_cex :
    tC6c.last_price = 0 ∧ tC6p.last_price = 0 ∧
    (calculate_diff [("K|M", tC6p)] [("K|M", tC6c)] []).modified.map
      (fun x => (x.2.exit_price, x.2.implied_fill_price)) = [(100, 100)] ∧
    (100 : ℚ) ≠ 0 := by
  refine ⟨by norm_num [tC6c], by norm_num [tC6p], ?_, by norm_num⟩
  have hk : unionKeys [("K|M", tC6p)] [("K|M", tC6c)] = ["K|M"] := by decide
  simp only [calculate_diff]
  rw [hk]
  simp only [List.filterMap_cons, List.filterMap_nil, lookupTM, ite_true]
  norm_num [modifiedEntry, backfillOriginal, impliedFillPrice0, impliedFillSide,
    isReducing, modEntryPrice, orQ, orI, lookupTM, tC6p, tC6c]

/-- C6 amended: on a modified key that is a reduction fully exiting the
position with zero current booked P and L, when the implied fill price is
non zero and within one hundredth of the (non zero) entry price, and the
last traded price (current, else previous) is positive, that last traded
price replaces both the exit price and the displayed implied fill
price. -/
theorem C6_full_exit_ltp (prev curr hist : TradeMap) (k : String) (pt ct : Trade)
    (hp : lookupTM prev k = some pt) (hc : lookupTM curr k = some ct)
    (hred : isReducing pt.quantity ct.quantity)
    (hb : ct.booked_profit_loss = 0)
    (hq1 : ct.quantity = 0)
    (hifp : impliedFillPrice0 pt.quantity ct.quantity
        (modEntryPrice (backfillOriginal pt (lookupTM hist k)).2.1 pt)
        ct.average_price ≠ 0)
    (htol : |impliedFillPrice0 pt.quantity ct.quantity
          (modEntryPrice (backfillOriginal pt (lookupTM hist k)).2.1 pt)
          ct.average_price -
        modEntryPrice (backfillOriginal pt (lookupTM hist k)).2.1 pt| < 1 / 100)
    (hentry : modEntryPrice (backfillOriginal pt (lookupTM hist k)).2.1 pt ≠ 0)
    (hltp : orQ ct.last_price pt.last_price > 0) :
    (k, modifiedEntry k pt ct hist) ∈ (calculate_diff prev curr hist).modified ∧
    (modifiedEntry k pt ct hist).exit_price = orQ ct.last_price pt.last_price ∧
    (modifiedEntry k pt ct hist).implied_fill_price =
      orQ ct.last_price pt.last_price := by
  have hq0 : pt.quantity ≠ 0 := by
    rcases hred with ⟨h1, h2⟩ | ⟨h1, h2⟩ <;> omega
  have hq : pt.quantity ≠ ct.quantity := by omega
  have hL0 : orQ ct.last_price pt.last_price ≠ 0 := ne_of_gt hltp
  refine ⟨modified_mem_of_lookup hp hc hq, ?_⟩
  unfold modifiedEntry
  have hred2 := hred
  simp only [hq1] at hifp htol hred2
  simp only [orI_zero, orQ_zero, hb, hq1, hred, hifp, htol, hentry, hltp, hL0,
    ne_eq, not_true_eq_false, not_false_eq_true, if_true, if_false, true_and,
    and_true, sub_zero, abs_ne_zero, hq0, if_pos, iff_true]
  simp [hred2, hifp, htol, hltp, hL0, hentry, hq0, abs_ne_zero]

/-- Previous side of the C6 witness, a full exit where the broker did not
move the average. -/
def tC6wp : Trade := ⟨some "K", some "M", 10, 100, 120, 0, 0⟩

/-- Current side of the C6 witness, flat with a live last price. -/
def tC6wc : Trade := ⟨some "K", some "M", 0, 100, 118, 0, 0⟩

theorem C6_full_exit_ltp_witness :
    (("K|M", modifiedEntry "K|M" tC6wp tC6wc []) ∈
      (calculate_diff [("K|M", tC6wp)] [("K|M", tC6wc)] []).modified) ∧
    (modifiedEntry "K|M" tC6wp tC6wc []).exit_price =
      orQ tC6wc.last_price tC6wp.last_price ∧
    (modifiedEntry "K|M" tC6wp tC6wc []).implied_fill_price =
      orQ tC6wc.last_price tC6wp.last_price :=
  C6_full_exit_ltp [("K|M", tC6wp)] [("K|M", tC6wc)] [] "K|M" tC6wp tC6wc rfl rfl
    (by norm_num [isReducing, tC6wp, tC6wc])
    (by norm_num [tC6wc])
    (by norm_num [tC6wc])
    (by norm_num [impliedFillPrice0, modEntryPrice, backfillOriginal, lookupTM,
      orQ, tC6wp, tC6wc])
    (by norm_num [impliedFillPrice0, modEntryPrice, backfillOriginal, lookupTM,
      orQ, tC6wp, tC6wc])
    (by norm_num [modEntryPrice, backfillOriginal, lookupTM, orQ, tC6wp, tC6wc])
    (by norm_num [orQ, tC6wp, tC6wc])

/-- Previous side of the C1 failing input: an open long leg, zero booked. -/
def tC1p : Trade := ⟨some "K", some "M", 5, 100, 120, 0, 0⟩

/-- Current side of the C1 failing input: the transient flat entry whose
booked figure of 250 the spec expects the removed branch to pick up. -/
def tC1c : Trade := ⟨some "K", some "M", 0, 100, 120, 0, 250⟩

/-- C1: a key that goes flat while still present in the current map is
classified MODIFIED, never REMOVED, so the removed branch fallback to the
current booked figure (app.py lines 1486 to 1488) is unreachable: removal
requires the key to be absent from the current map altogether. The booked
figure of the transient flat entry flows through the modified branch
instead. -/
theorem C1_transient_flat_key_not_removed :
    (calculate_diff [("K|M", tC1p)] [("K|M", tC1c)] []).removed = [] ∧
    (calculate_diff [("K|M", tC1p)] [("K|M", tC1c)] []).modified.map
      (fun x => (x.1, x.2.booked_pnl, x.2.exit_pnl)) = [("K|M", 250, 250)] := by
  have hk : unionKeys [("K|M", tC1p)] [("K|M", tC1c)] = ["K|M"] := by decide
  constructor
  · simp only [calculate_diff]
    rw [hk]
    simp [lookupTM]
  · simp only [calculate_diff]
    rw [hk]
    simp only [List.filterMap_cons, List.filterMap_nil, lookupTM, ite_true]
    norm_num [modifiedEntry, backfillOriginal, impliedFillPrice0, impliedFillSide,
      isReducing, modEntryPrice, orQ, orI, lookupTM, tC1p, tC1c]

/-- C8: the start of day P and L is the total minus booked P and L of the
latest position change strictly before the date; with no such prior row
it falls back to the plain total of the first change of the date, and to
zero with no change at all; and todays P and L is always the current P
and L minus the start of day P and L. -/
theorem C8_daily_pnl_metrics (changes : List ChangeRow) (snaps : List SnapRow)
    (realtime : Option RealtimeRow) (today date : ℕ) :
    (∀ ch, prevChange changes date = some ch →
      (get_daily_pnl_metrics changes snaps realtime today date).start_pnl =
        (calculate_snapshot_pnl ch.snap).1 - (calculate_snapshot_pnl ch.snap).2) ∧
    (prevChange changes date = none →
      ∀ ch, firstChangeOfDay changes date = some ch →
        (get_daily_pnl_metrics changes snaps realtime today date).start_pnl =
          (calculate_snapshot_pnl ch.snap).1) ∧
    (prevChange changes date = none → firstChangeOfDay changes date = none →
      (get_daily_pnl_metrics changes snaps realtime today date).start_pnl = 0) ∧
    (get_daily_pnl_metrics changes snaps realtime today date).todays_pnl =
      (get_daily_pnl_metrics changes snaps realtime today date).current_pnl -
        (get_daily_pnl_metrics changes snaps realtime today date).start_pnl := by
  refine ⟨?_, ?_, ?_, ?_⟩
  · intro ch hch
    simp [get_daily_pnl_metrics, hch]
  · intro hnone ch hch
    simp [get_daily_pnl_metrics, hnone, hch]
  · intro hnone hnone2
    simp [get_daily_pnl_metrics, hnone, hnone2]
  · simp [get_daily_pnl_metrics]

/-- Prior day change row of the C8 witness: total 42, booked 12. -/
def chC8 : ChangeRow :=
  ⟨1, 10, some [[{ unbooked_pnl := some 30, booked_profit_loss := some 12 }]]⟩

/-- Same day snapshot row of the C8 witness: total 55, booked 5. -/
def snC8 : SnapRow :=
  ⟨2, 20, [[{ unbooked_pnl := some 50, booked_profit_loss := some 5 }]]⟩

theorem C8_daily_pnl_metrics_witness :
    (get_daily_pnl_metrics [chC8] [snC8] none 5 2).start_pnl =
      (calculate_snapshot_pnl chC8.snap).1 - (calculate_snapshot_pnl chC8.snap).2 ∧
    (get_daily_pnl_metrics [chC8] [snC8] none 5 2).todays_pnl =
      (get_daily_pnl_metrics [chC8] [snC8] none 5 2).current_pnl -
        (get_daily_pnl_metrics [chC8] [snC8] none 5 2).start_pnl := by
  have h := C8_daily_pnl_metrics [chC8] [snC8] none 5 2
  refine ⟨h.1 chC8 ?_, h.2.2.2⟩
  simp [prevChange, pickLatestChange, chC8]

theorem lookupLS_map_replace_ne {st : StateMap} {k1 k : String} {v : LifeState}
    (h : k1 ≠ k) :
    lookupLS (st.map (fun p => if p.1 = k1 then (k1, v) else p)) k = lookupLS st k := by
  induction st with
  | nil => rfl
  | cons hd tl ih =>
    by_cases h1 : hd.1 = k1
    · simp only [List.map_cons, h1, if_true]
      simp [lookupLS, h, h1, ih]
    · simp only [List.map_cons, if_neg h1]
      by_cases h2 : hd.1 = k
      · simp [lookupLS, h2]
      · simp [lookupLS, h2, ih]

theorem lookupLS_append_single_ne {st : StateMap} {k1 k : String} {v : LifeState}
    (h : k1 ≠ k) : lookupLS (st ++ [(k1, v)]) k = lookupLS st k := by
  induction st with
  | nil => simp [lookupLS, h]
  | cons hd tl ih =>
    by_cases h2 : hd.1 = k
    · simp [lookupLS, h2]
    · simp only [List.cons_append]
      simp [lookupLS, h2, ih]

theorem lookupLS_setLS_ne {st : StateMap} {k1 k : String} {v : LifeState}
    (h : k1 ≠ k) : lookupLS (setLS st k1 v) k = lookupLS st k := by
  unfold setLS
  split
  · exact lookupLS_map_replace_ne h
  · exact lookupLS_append_single_ne h

theorem lookupLS_isSome_of_mem {st : StateMap} {k : String}
    (h : k ∈ st.map Prod.fst) : (lookupLS st k).isSome := by
  induction st with
  | nil => simp at h
  | cons hd tl ih =>
    by_cases hk : hd.1 = k
    · simp [lookupLS, hk]
    · have : k ∈ tl.map Prod.fst := by
        rcases List.mem_map.mp h with ⟨p, hp, he⟩
        rcases List.mem_cons.mp hp with h1 | h1
        · exact absurd (h1 ▸ he) hk
        · exact List.mem_map.mpr ⟨p, h1, he⟩
      simp [lookupLS, hk, ih this]

theorem not_mem_matching_of_filtered {S pf : String} {tm : TradeMap} {st : StateMap}
    {k : String} (hpf : pf ≠ "") (hkey : keyProd k ≠ pf)
    (ht : ∀ t : Trade, (k, t) ∈ tm → t.product.getD "" ≠ pf) :
    k ∉ lifecycleMatchingKeys S pf tm st := by
  intro hk
  unfold lifecycleMatchingKeys at hk
  rcases List.mem_append.mp hk with h | h
  · rcases List.mem_map.mp h with ⟨p, hp, he⟩
    have hfil := List.mem_filter.mp hp
    rcases of_decide_eq_true hfil.2 with ⟨_, hprod⟩
    rcases hprod with h0 | h0
    · exact hpf h0
    · refine ht p.2 ?_ h0
      rw [← he, Prod.mk.eta]
      exact hfil.1
  · have hfil := List.mem_filter.mp h
    rcases of_decide_eq_true hfil.2 with ⟨_, hprod, _⟩
    rcases hprod with h0 | h0
    · exact hpf h0
    · exact hkey h0

theorem lifecycleSnapshot_preserves_absent {S pf : String} {ts : ℕ} {tm : TradeMap}
    {st : StateMap} {k : String} (hpf : pf ≠ "") (hkey : keyProd k ≠ pf)
    (ht : ∀ t : Trade, (k, t) ∈ tm → t.product.getD "" ≠ pf)
    (hst : lookupLS st k = none) :
    lookupLS (lifecycleSnapshot S pf ts tm st).2 k = none := by
  have hnotin := @not_mem_matching_of_filtered S pf tm st k hpf hkey ht
  unfold lifecycleSnapshot
  have hgen : ∀ (ks : List String) (acc : List LifeEvent × StateMap),
      k ∉ ks → lookupLS acc.2 k = none →
      lookupLS (ks.foldl (fun acc k2 =>
        let st0 := (lookupLS acc.2 k2).getD
          { present := false, last_trade := none, last_good_trade := none }
        let r := lifecycleProcessKey S ts k2 tm st0
        (acc.1 ++ r.1.toList, setLS acc.2 k2 r.2)) acc).2 k = none := by
    intro ks
    induction ks with
    | nil => intro acc _ hacc; exact hacc
    | cons k1 rest ih =>
      intro acc hk hacc
      simp only [List.foldl_cons]
      refine ih _ (fun h => hk (List.mem_cons.mpr (Or.inr h))) ?_
      have hne : k1 ≠ k := fun he => hk (he ▸ List.mem_cons_self k1 rest)
      exact (lookupLS_setLS_ne hne).trans hacc
  exact hgen _ ([], st) hnotin hst

/-- A trade of symbol NIFTY, product MIS, used by the C2 counterexample
and witness. -/
def tC2 : Trade := ⟨some "NIFTY", some "MIS", 5, 100, 101, 0, 0⟩

/-- C2 counterexample: replaying the same single snapshot with product
filter NRML leaves the key NIFTY vertical bar MIS with no lifecycle state
at all, while the unfiltered replay tracks it, so the per key state
transitions depend on the filter. -/
theorem C2_filter_state_cex :
    lookupLS (symbol_lifecycle_replay "NIFTY" "NRML"
      [(1, [("NIFTY|MIS", tC2)])]).2 "NIFTY|MIS" = none ∧
    (lookupLS (symbol_lifecycle_replay "NIFTY" ""
      [(1, [("NIFTY|MIS", tC2)])]).2 "NIFTY|MIS").isSome = true := by
  constructor
  · decide
  · decide

/-- C2 amended: the symbol and product filter of the symbol lifecycle
replay gates state updates as well as event emission. A key whose product
component (and whose every trade entry product) differs from a non empty
product filter is never processed: the replay ends with no lifecycle
state entry for it, whereas the unfiltered replay creates one on first
sight. -/
theorem C2_filter_gates_state (symbol pf : String) (snaps : List (ℕ × TradeMap))
    (k : String) (hpf : pf ≠ "") (hkey : keyProd k ≠ pf)
    (ht : ∀ s ∈ snaps, ∀ t : Trade, (k, t) ∈ s.2 → t.product.getD "" ≠ pf) :
    lookupLS (symbol_lifecycle_replay symbol pf snaps).2 k = none := by
  unfold symbol_lifecycle_replay
  have hgen : ∀ (ss : List (ℕ × TradeMap)) (acc : List LifeEvent × StateMap),
      (∀ s ∈ ss, ∀ t : Trade, (k, t) ∈ s.2 → t.product.getD "" ≠ pf) →
      lookupLS acc.2 k = none →
      lookupLS (ss.foldl (fun acc s =>
        let r := lifecycleSnapshot (upperStr symbol) pf s.1 s.2 acc.2
        (acc.1 ++ r.1, r.2)) acc).2 k = none := by
    intro ss
    induction ss with
    | nil => intro acc _ hacc; exact hacc
    | cons s rest ih =>
      intro acc hts hacc
      simp only [List.foldl_cons]
      refine ih _ (fun s2 hs2 => hts s2 (List.mem_cons.mpr (Or.inr hs2))) ?_
      exact lifecycleSnapshot_preserves_absent hpf hkey
        (hts s (List.mem_cons_self s rest)) hacc
  exact hgen snaps ([], []) ht rfl

theorem C2_filter_gates_state_witness :
    lookupLS (symbol_lifecycle_replay "NIFTY" "NRML"
      [(1, [("NIFTY|MIS", tC2)])]).2 "NIFTY|MIS" = none := by
  apply C2_filter_gates_state
  · decide
  · decide
  · intro s hs t htm
    simp only [List.mem_singleton] at hs
    subst hs
    simp only [List.mem_singleton, Prod.mk.injEq] at htm
    rw [htm.2]
    decide

/-- A NIFTY MIS trade with the given quantity and prices, for the C3
scenario. -/
def mkNifty (q : ℤ) (a l u b : ℚ) : Trade := ⟨some "NIFTY", some "MIS", q, a, l, u, b⟩

set_option maxHeartbeats 1000000 in
/-- C3: replaying four snapshots whose quantities for the one key are
0, 5, 5, 0 emits exactly two events, ENTERED on the second snapshot and
EXITED on the fourth, whatever the price and P and L fields are; presence
is the key being in the current map with non zero quantity. -/
theorem C3_lifecycle_two_events
    (aA lA uA bA aB lB uB bB aC lC uC bC aD lD uD bD : ℚ) :
    ((symbol_lifecycle_replay "NIFTY" ""
      [(1, [("NIFTY|MIS", mkNifty 0 aA lA uA bA)]),
       (2, [("NIFTY|MIS", mkNifty 5 aB lB uB bB)]),
       (3, [("NIFTY|MIS", mkNifty 5 aC lC uC bC)]),
       (4, [("NIFTY|MIS", mkNifty 0 aD lD uD bD)])]).1).map
      (fun e => (e.type, e.timestamp)) = [("ENTERED", 2), ("EXITED", 4)] := by
  have hS : upperStr "NIFTY" = "NIFTY" := by decide
  by_cases hB : aB = 0 <;> by_cases hC : aC = 0 <;>
    simp [symbol_lifecycle_replay, lifecycleSnapshot, lifecycleMatchingKeys,
      lifecycleProcessKey, best_effort_trade_before, compute_exit_metrics,
      compute_implied_fill, setLS, lookupLS, lookupTM, mkNifty, orI, orQ, hS,
      keyProd, afterBar, impliedFillSide, impliedFillPrice0,
      hB, hC, List.filter]
